import Mathlib

/-!
Verification development for the `ebuild-crates-check` crawler.

The Rust sources (`src/main.rs`, `src/gitrepo.rs`, `src/re.rs`,
`src/overlays.rs`) are shallowly embedded below: strings are lists of
characters, fallible operations are `Except`, the external world (git
network transport, filesystem, the rustsec advisory database, the
crates.io registry index) is abstracted into environment records whose
fields are the results the external calls would deliver, and the
side-effect order that matters to the specification (git transport
events, output-file creation) is made observable as explicit event
traces.
-/

namespace EbuildCheck

/-- Strings are modelled as lists of characters. -/
abbrev Str := List Char

/-- Abbreviation for turning a Lean string literal into the model type. -/
def toL (s : String) : Str := s.toList

/-- Substring test, modelling Rust's `str::contains` for literal patterns:
the pattern occurs as a contiguous infix of the text. -/
def containsSub (pat : Str) : Str → Bool
  | [] => pat.isEmpty
  | c :: rest => pat.isPrefixOf (c :: rest) || containsSub pat rest

/-! ## Source scoring and ordering (src/main.rs lines 104-128)

`source_goodness` is translated verbatim from the nested `if` chain in
the overlay task of `main`; `scoredSources` performs the
`filter(typ == Git)` and the `sort_by_key(source_goodness)` that the
overlay task applies before its fetch loop.  Rust's `sort_by_key` is a
stable sort that puts *ascending* keys first; `List.mergeSort` with a
total `≤` test is the same stable ascending sort. -/

/-- Transport quality classification of `main.rs` (`source_goodness`). -/
def source_goodness (url : Str) : Int :=
  if (toL ("git://")).isPrefixOf url then -2
  else if (toL ("https://")).isPrefixOf url then -1
  else if (toL ("git@")).isPrefixOf url then 1
  else if (toL ("git+ssh://")).isPrefixOf url then 2
  else if (toL ("ssh+git://")).isPrefixOf url then 2
  else 0

/-- Source transport types from `overlays.rs` (`SourceType`). -/
inductive SourceType
  | git
  | rsync
  | mercurial
  | svn
deriving DecidableEq, Repr

/-- A source of an overlay (`overlays.rs`, `Source`). -/
structure Source where
  typ : SourceType
  url : Str
deriving DecidableEq, Repr

/-- The git-source filter of the overlay task (`main.rs` lines 119-123). -/
def gitSources (sources : List Source) : List Source :=
  sources.filter (fun s => s.typ == SourceType.git)

/-- The sort applied by the overlay task (`main.rs` line 128):
`sources.sort_by_key(|s| source_goodness(&s.url))`, a stable sort by
ascending key. -/
def sortSources (sources : List Source) : List Source :=
  sources.mergeSort (fun a b => decide (source_goodness a.url ≤ source_goodness b.url))

/-! ## Data model (src/main.rs lines 35-73)

`rustsec::package::Name` and `rustsec::package::Version` are external
crates; here a dependency is identified by the validated name and
version strings themselves. -/

/-- A manifest key: overlay name and path inside the tree
(`main.rs`, `struct Ebuild`). -/
structure Ebuild where
  overlay : String
  path : Str
deriving DecidableEq, Repr

/-- A dependency specifier (`main.rs`, `struct DepInfo`). -/
structure DepInfo where
  name : Str
  ver : Str
deriving DecidableEq, Repr

/-- Advisory projection (`main.rs`, `struct AdvisoryMeta`).  The `cvss`
field models `(base.score().value() * 1000.0) as i64` already applied:
a CVSS v3 base score lies in `[0.0, 10.0]`, so the converted value is a
natural number in `[0, 10000]`. -/
structure AdvisoryMeta where
  id : String
  title : String
  cvss : Option Nat
deriving DecidableEq, Repr

/-- Report entry for one distinct dependency (`main.rs`,
`struct CrateStatus`). -/
structure CrateStatus where
  id : DepInfo
  advisories : List AdvisoryMeta
  yanked : Option Bool
  ebuilds : List Ebuild
deriving DecidableEq, Repr

/-! ## Overlay synchronizer task (src/main.rs lines 100-183)

The task's interactions with the outside world (directory existence,
repository open, local HEAD resolution, per-source fetch, tree walk)
are supplied by an environment record; the task body is translated
control-flow-faithfully.  A resolved HEAD reference is abstracted as a
`Nat`.  The task's contribution to the shared extraction map is its
return value: the list of `(Ebuild, deps)` insertions the tree walk
performs. -/

/-- Environment of one overlay task: the results that the filesystem,
git backend and tree walk would deliver. -/
structure OverlayEnv where
  offline : Bool
  sources : List Source
  repoExists : Bool
  openRepo : Except String Unit
  head0 : Except String Nat
  fetch : Source → Except String Nat
  walk : Nat → Except String (List (Ebuild × List DepInfo))

/-- The fetch loop of the overlay task (`main.rs` lines 141-156): try
each source in order, first success wins, failures are logged and the
next source is tried; if all fail the previous `head` candidate is
kept. -/
def tryFetch (fetch : Source → Except String Nat) :
    List Source → Except String Nat → Except String Nat
  | [], head => head
  | s :: rest, head =>
    match fetch s with
    | .ok h => .ok h
    | .error _ => tryFetch fetch rest head

/-- The per-overlay task body (`main.rs` lines 103-172).  `.ok l`
means the task terminated successfully after inserting exactly the
entries `l` into the shared extraction map. -/
def overlayTask (env : OverlayEnv) : Except String (List (Ebuild × List DepInfo)) :=
  let sources := gitSources env.sources
  if sources.isEmpty then .ok []
  else
    let sources := sortSources sources
    if env.offline && !env.repoExists then .ok []
    else
      match env.openRepo with
      | .error e => .error e
      | .ok _ =>
        let head := env.head0
        let head := if !env.offline then tryFetch env.fetch sources head else head
        if env.offline && !head.isOk then .ok []
        else
          match head with
          | .error e => .error e
          | .ok h => env.walk h

/-! ## Ranking key (src/main.rs lines 237-255) -/

/-- The composite sort key computed by `crates.sort_by_cached_key`:
`(prio, gentoo_used, score, used)` exactly as in the closure. -/
def sortKey (e : CrateStatus) : Nat × Nat × Int × Nat :=
  let used := e.ebuilds.length
  let gentoo_used := (e.ebuilds.filter (fun b => b.overlay == "gentoo")).length
  let score : Int :=
    (((e.advisories.filterMap (fun v => v.cvss)).map Int.ofNat).max?).getD (-(2 ^ 63))
  let prio : Nat :=
    match e.advisories.isEmpty with
    | false => 3
    | true =>
      match e.yanked with
      | some true => 2
      | none => 1
      | some false => 0
  (prio, gentoo_used, score, used)

/-- Lexicographic `≤` on the 4-component key, the order `Ord` derives
for a Rust 4-tuple. -/
def lexLe (a b : Nat × Nat × Int × Nat) : Bool :=
  decide (a.1 < b.1) ||
    (a.1 == b.1 && (decide (a.2.1 < b.2.1) ||
      (a.2.1 == b.2.1 && (decide (a.2.2.1 < b.2.2.1) ||
        (a.2.2.1 == b.2.2.1 && decide (a.2.2.2 ≤ b.2.2.2))))))

/-- Comparison used by the report sort: `sort_by_cached_key` with
`Reverse(key)` sorts ascending in the reversed order, i.e. an element
precedes another when its key is lexicographically *greater or
equal*. -/
def crateLe (e f : CrateStatus) : Bool :=
  lexLe (sortKey f) (sortKey e)

/-- The report sort (`main.rs` line 237): stable, descending by
`sortKey`. -/
def sortCrates (l : List CrateStatus) : List CrateStatus :=
  l.mergeSort crateLe

/-! ## Cross-reference engine (src/main.rs lines 206-234)

The shared map iteration `for e in &deps { for dep in e.value() { .. } }`
is the fold over the flattened `(Ebuild, DepInfo)` pair list.  The
`HashMap::entry(..).or_insert_with(..)` pattern is modelled by an
association list together with an explicit log of the dependencies for
which the `or_insert_with` closure ran (i.e. for which the advisory
query and the yank lookup were performed). -/

/-- Yank-status table built from the crates.io index
(`main.rs`, `type YankingStatus`): name → version → yanked. -/
abbrev YankTable := List (Str × List (Str × Bool))

/-- The advisory database as the cross-reference stage consumes it:
its advisory count and its exact name+version query. -/
structure Db where
  advisoryCount : Nat
  query : DepInfo → List AdvisoryMeta

/-- Yank lookup (`main.rs` lines 219-222):
`yanks.get(name).and_then(|vs| vs.get(ver)).map(|v| *v)`. -/
def lookupYank (t : YankTable) (d : DepInfo) : Option Bool :=
  (List.lookup d.name t).bind (fun vs => List.lookup d.ver vs)

/-- Association-list lookup for the `crates` map. -/
def lookupCS : List (DepInfo × CrateStatus) → DepInfo → Option CrateStatus
  | [], _ => none
  | p :: rest, d => if p.1 = d then some p.2 else lookupCS rest d

/-- Append one referencing manifest to the status stored under `d`
(the `.ebuilds.push(..)` on the entry returned by `or_insert_with`). -/
def pushRef (m : List (DepInfo × CrateStatus)) (d : DepInfo) (b : Ebuild) :
    List (DepInfo × CrateStatus) :=
  m.map (fun p => if p.1 = d then (p.1, { p.2 with ebuilds := p.2.ebuilds ++ [b] }) else p)

/-- The freshly created status of `or_insert_with` (advisory query and
yank lookup), after the first reference has been pushed. -/
def newStatus (db : Db) (yanks : YankTable) (d : DepInfo) (b : Ebuild) : CrateStatus :=
  { id := d, advisories := db.query d, yanked := lookupYank yanks d, ebuilds := [b] }

/-- One step of the cross-reference loop: look the dependency up; on a
hit only push the manifest key, on a miss create the entry (recording
the dependency in the lookup log). -/
def crStep (db : Db) (yanks : YankTable)
    (acc : List (DepInfo × CrateStatus) × List DepInfo) (p : Ebuild × DepInfo) :
    List (DepInfo × CrateStatus) × List DepInfo :=
  match lookupCS acc.1 p.2 with
  | some _ => (pushRef acc.1 p.2 p.1, acc.2)
  | none => (acc.1 ++ [(p.2, newStatus db yanks p.2 p.1)], acc.2 ++ [p.2])

/-- Flattening of the nested iteration over the extraction map. -/
def depPairs (deps : List (Ebuild × List DepInfo)) : List (Ebuild × DepInfo) :=
  deps.flatMap (fun p => p.2.map (fun d => (p.1, d)))

/-- The cross-reference loop over the flattened pair list, returning
the built map together with the log of performed lookups. -/
def crossRefPairs (db : Db) (yanks : YankTable) (pairs : List (Ebuild × DepInfo)) :
    List (DepInfo × CrateStatus) × List DepInfo :=
  pairs.foldl (crStep db yanks) ([], [])

/-- The cross-reference stage as `main` uses it: the `CrateStatus`
collection built from the joined extraction map (the subsequent
`.map(|(_, v)| v)`). -/
def crossRef (db : Db) (yanks : YankTable) (deps : List (Ebuild × List DepInfo)) :
    List CrateStatus :=
  (crossRefPairs db yanks (depPairs deps)).1.map Prod.snd

/-! ## Post-join sequence of `main` (src/main.rs lines 186-266)

After `pool.scope` joins every task, `main` consumes the collected
results in source order: `yanks?` (crates.io registry index task),
`gentoo_overlay_status.swap(Ok(()))?` (the distinguished primary
overlay), `rustsec_get?` (advisory repository task), opening the local
rustsec repository, the freshness check, loading the database, the
advisory-count check, cross-referencing, sorting, and finally creating
and writing `status.json`.  Whether the output file was touched is made
observable through an event list. -/

/-- Observable output-file events of the final stage. -/
inductive OutEvent
  | createOutput
  | writeOutput
deriving DecidableEq, Repr

/-- Results that the joined tasks and the late external calls deliver
to the final stage of `main`. -/
structure JoinEnv where
  yanks : Except String YankTable
  gentoo : Except String Unit
  rustsecGet : Except String Unit
  openDb : Except String Unit
  latestFresh : Except String Bool
  loadDb : Except String Db
  deps : List (Ebuild × List DepInfo)
  createFile : Except String Unit
  writeJson : Except String Unit

/-- The post-join tail of `main` (`main.rs` lines 186-266), translated
check by check in source order.  The second component records whether
the output file was created/written. -/
def mainAfterJoin (env : JoinEnv) : Except String (List CrateStatus) × List OutEvent :=
  match env.yanks with
  | .error e => (.error e, [])
  | .ok yanks =>
    match env.gentoo with
    | .error e => (.error e, [])
    | .ok _ =>
      match env.rustsecGet with
      | .error e => (.error e, [])
      | .ok _ =>
        match env.openDb with
        | .error e => (.error e, [])
        | .ok _ =>
          match env.latestFresh with
          | .error e => (.error e, [])
          | .ok fresh =>
            if !fresh then (.error ("Rustsec database is stale"), [])
            else
              match env.loadDb with
              | .error e => (.error e, [])
              | .ok db =>
                if db.advisoryCount == 0 then
                  (.error ("0 advisories found. Sounds  wrong."), [])
                else
                  let crates := sortCrates (crossRef db yanks env.deps)
                  match env.createFile with
                  | .error _ => (.error ("Open output file"), [OutEvent.createOutput])
                  | .ok _ =>
                    match env.writeJson with
                    | .error _ =>
                      (.error ("Write output"),
                        [OutEvent.createOutput, OutEvent.writeOutput])
                    | .ok _ =>
                      (.ok crates, [OutEvent.createOutput, OutEvent.writeOutput])

/-! ## Synchronization engine (src/gitrepo.rs, `RepoRepo::up`)

The git2 transport is abstracted into an environment holding the
outcomes of the external calls, and the calls themselves are recorded
in order as events: connect, reference listing, download (with the
exact reference names passed to `Remote::download`), transport
disconnect, and local reference updates. -/

/-- One advertised remote reference: its name, the object id it points
to, and the symbolic-reference target if it is a symbolic alias. -/
structure RemoteRef where
  name : Str
  oid : Nat
  symrefTarget : Option Str
deriving DecidableEq, Repr

/-- Outcomes of the external git2 calls inside `RepoRepo::up`. -/
structure UpEnv where
  connectOk : Bool
  refs : List RemoteRef
  downloadOk : Bool
  disconnectOk : Bool
  storeOk : Bool
deriving Repr

/-- Observable git transport/storage events of `RepoRepo::up`. -/
inductive GitEvent
  | connect
  | listRefs
  | download (names : List Str)
  | disconnect
  | updateRef (name : Str) (oid : Nat)
deriving DecidableEq, Repr

/-- `RepoRepo::up` (`gitrepo.rs` lines 43-111): strip an
`ssh+git://`/`git+ssh://` scheme, connect, list the advertised
references, take the first as the remote default-branch pointer,
download exactly that one reference, disconnect the transport, then
store the symbolic target (when present) and the concrete name in
local storage.  Returns the fetched object id and the event trace. -/
def up (env : UpEnv) (url : Str) : Except String Nat × List GitEvent :=
  let _url :=
    if (toL ("ssh+git://")).isPrefixOf url || (toL ("git+ssh://")).isPrefixOf url
    then url.drop 10 else url
  if !env.connectOk then (.error ("connect_auth"), [GitEvent.connect])
  else
    match env.refs with
    | [] => (.error ("Get HEAD"), [GitEvent.connect, GitEvent.listRefs])
    | head :: _ =>
      let evs := [GitEvent.connect, GitEvent.listRefs, GitEvent.download [head.name]]
      if !env.downloadOk then (.error ("Fetch"), evs)
      else
        let evs := evs ++ [GitEvent.disconnect]
        if !env.disconnectOk then (.error ("disconnect"), evs)
        else
          match head.symrefTarget with
          | some srt =>
            let evs := evs ++ [GitEvent.updateRef srt head.oid]
            if !env.storeOk then (.error ("Store head"), evs)
            else
              let evs := evs ++ [GitEvent.updateRef head.name head.oid]
              if !env.storeOk then (.error ("Store head"), evs)
              else (.ok head.oid, evs)
          | none =>
            let evs := evs ++ [GitEvent.updateRef head.name head.oid]
            if !env.storeOk then (.error ("Store head"), evs)
            else (.ok head.oid, evs)

/-- The ordering asserted by the specification sentence for `up`: every
local reference update happens before the transport is closed, i.e. no
update event follows a disconnect event in the trace. -/
def updatesBeforeDisconnect (tr : List GitEvent) : Prop :=
  ∀ pre post, tr = pre ++ GitEvent.disconnect :: post →
    ∀ n o, GitEvent.updateRef n o ∉ post

/-! ## Dependency extractor (src/re.rs and src/main.rs lines 293-363)

The two regular expressions that the claims exercise are embedded as
executable character-list matchers with the `regex` crate's
leftmost-first semantics:

* `CRATES`: `\n *CRATES="(.*?)" *(#.*)?\n` compiled with
  `dot_matches_new_line(true)`.  The leftmost match position wins, the
  lazy group takes the shortest text whose closing context (`" *` then
  either a newline, or `#` followed by any text containing a later
  newline) matches.
* `DEPSPEC`: `^([a-zA-Z0-9_\-]+)-([0-9]+\.[0-9]+\.[0-9]+.*)$`.  The
  greedy first group means the *last* split point producing a valid
  version tail wins; `.` does not match a newline and `$` is the end
  of the haystack.
-/

/-- Character class `[a-zA-Z0-9_\-]` of `DEPSPEC`. -/
def wordChar (c : Char) : Bool := c.isAlphanum || c == '_' || c == '-'

/-- Maximal-munch `[0-9]+`: requires at least one leading digit and
consumes the whole digit run, returning the rest. -/
def digits1 : Str → Option Str
  | [] => none
  | c :: rest => if c.isDigit then some (rest.dropWhile Char.isDigit) else none

/-- The version-tail pattern `[0-9]+\.[0-9]+\.[0-9]+.*` anchored to the
end of the token (`.` excludes newlines). -/
def versionTail (s : Str) : Bool :=
  match digits1 s with
  | some ('.' :: r1) =>
    match digits1 r1 with
    | some ('.' :: r2) =>
      match digits1 r2 with
      | some rest => rest.all (fun c => !(c == '\n'))
      | none => false
    | _ => false
  | _ => false

/-- The `DEPSPEC` capture: the greedy name group takes the largest
prefix of word characters followed by `-` and a valid version tail. -/
def depspecCapture (s : Str) : Option (Str × Str) :=
  (List.range s.length).reverse.findSome? (fun i =>
    match s.drop i with
    | '-' :: v =>
      let pre := s.take i
      if !pre.isEmpty && pre.all wordChar && versionTail v then some (pre, v) else none
    | _ => none)

/-- Models the external `rustsec::package::Name` parser: a nonempty
identifier of word characters. -/
def nameOk (s : Str) : Bool :=
  !s.isEmpty && s.all (fun c => c.isAlphanum || c == '_' || c == '-')

/-- Character allowed in a semver pre-release/build suffix. -/
def semverSuffixChar (c : Char) : Bool := c.isAlphanum || c == '-' || c == '.' || c == '+'

/-- Models the external semver `Version` parser consumed through
`rustsec::package::Version`: `major.minor.patch` digit runs, optionally
followed by a `-pre`/`+build` suffix of semver suffix characters. -/
def semverOk (s : Str) : Bool :=
  match digits1 s with
  | some ('.' :: r1) =>
    match digits1 r1 with
    | some ('.' :: r2) =>
      match digits1 r2 with
      | some rest =>
        rest.isEmpty ||
          ((rest.head? == some '-' || rest.head? == some '+') && rest.all semverSuffixChar)
      | none => false
    | _ => false
  | _ => false

/-- `cratespec_to_depinfo` (`main.rs` lines 356-363): match the token
against `DEPSPEC`, then run the name and version parsers; any failure
makes the token be dropped by the caller's `filter_map`. -/
def cratespec_to_depinfo (spec : Str) : Option DepInfo :=
  match depspecCapture spec with
  | none => none
  | some p => if nameOk p.1 && semverOk p.2 then some { name := p.1, ver := p.2 } else none

/-- ASCII whitespace, the fragment of Unicode whitespace that
ebuild declarations contain (`str::split_whitespace`). -/
def isWs (c : Char) : Bool := c == ' ' || c == '\t' || c == '\n' || c == '\r'

/-- Accumulator pass of `splitWs`: `cur` is the current token,
reversed. -/
def splitWsAux (cur : Str) : Str → List Str
  | [] => if cur.isEmpty then [] else [cur.reverse]
  | c :: rest =>
    if isWs c then
      if cur.isEmpty then splitWsAux [] rest
      else cur.reverse :: splitWsAux [] rest
    else splitWsAux (c :: cur) rest

/-- `str::split_whitespace`: the maximal whitespace-free runs, in
order, no empty tokens. -/
def splitWs (l : Str) : List Str := splitWsAux [] l

/-- `str::replace`: replace every non-overlapping occurrence of `pat`,
scanning left to right. -/
def replaceL (s pat rep : Str) : Str :=
  match s with
  | [] => []
  | c :: rest =>
    if h : pat ≠ [] ∧ pat.isPrefixOf (c :: rest) = true then
      rep ++ replaceL ((c :: rest).drop pat.length) pat rep
    else c :: replaceL rest pat rep
termination_by s.length
decreasing_by
  · have hp : 0 < pat.length := List.length_pos.mpr h.1
    simp
    omega
  · simp

/-- Closing context of the `CRATES` declaration after the closing
quote: `( *)(#.*)?\n` with `.` matching newlines — spaces, then either
an immediate newline or a `#` with some newline anywhere after it. -/
def closeOk : Str → Bool
  | [] => false
  | ' ' :: rest => closeOk rest
  | '\n' :: _ => true
  | '#' :: rest => rest.contains '\n'
  | _ => false

/-- Lazy scan for the closing quote of the `CRATES` declaration: the
shortest capture whose following context matches `closeOk`; a quote
with a non-matching context is swallowed into the capture. -/
def findClose : Str → Option (Str × Str)
  | [] => none
  | '"' :: rest =>
    if closeOk rest then some ([], rest)
    else
      match findClose rest with
      | some p => some ('"' :: p.1, p.2)
      | none => none
  | c :: rest =>
    match findClose rest with
    | some p => some (c :: p.1, p.2)
    | none => none

/-- Literal `CRATES="`. -/
def cratesLit : Str := toL ("CRATES=\"")

/-- After the newline of a `CRATES` match: consume the space indent
(` *`), then require the literal `CRATES="`, returning the text after
the opening quote. -/
def cratesStart : Str → Option Str
  | ' ' :: rest => cratesStart rest
  | l => if cratesLit.isPrefixOf l then some (l.drop cratesLit.length) else none

/-- Leftmost-first match of the `CRATES` regex, returning capture
group 1: scan for a newline whose following text passes `cratesStart`
and has a lazily-closed quote. -/
def cratesCapture : Str → Option Str
  | [] => none
  | '\n' :: rest =>
    (match cratesStart rest with
     | some after =>
       match findClose after with
       | some p => some p.1
       | none => cratesCapture rest
     | none => cratesCapture rest)
  | _ :: rest => cratesCapture rest

/-- Literal `$(cargo_crate_uris ${CRATES})`. -/
def stdInvocA : Str := toL ("$(cargo_crate_uris ${CRATES})")

/-- Literal `$(cargo_crate_uris $CRATES)`. -/
def stdInvocB : Str := toL ("$(cargo_crate_uris $CRATES)")

/-- Literal `cargo_crate_uris`. -/
def cargoUrisLit : Str := toL ("cargo_crate_uris")

/-- The standard substitution-macro usage check of `parse`
(`main.rs` lines 294-296). -/
def stdUses (content : Str) : Bool :=
  containsSub stdInvocA content || containsSub stdInvocB content

/-- Literal `${P}`. -/
def pP : Str := toL ("${P}")

/-- Literal `${PV}`. -/
def pPV : Str := toL ("${PV}")

/-- Literal `${PN}`. -/
def pPN : Str := toL ("${PN}")

/-- `parse` (`main.rs` lines 293-354).  `re::split_pkgver` (the
`EBUILD_DOTS` filename decoder) is passed in as `sp`; the claims below
hold for every behaviour of it.  `.ok`-style result: `some (key, l)`
means the manifest key `key` is inserted into the shared map with
dependency list `l`; `none` means nothing is inserted (the early
return for a manifest that never references the macro, or the warning
branch for a missing declaration). -/
def parse (sp : Str → Option (Str × Str)) (overlay : String) (path content : Str) :
    Option (Ebuild × List DepInfo) :=
  if !stdUses content && !containsSub cargoUrisLit content then none
  else
    match cratesCapture content with
    | some capt =>
      let capt :=
        match sp path with
        | some pnv =>
          replaceL (replaceL (replaceL capt pP (pnv.1 ++ '-' :: pnv.2)) pPV pnv.2) pPN pnv.1
        | none => capt
      some ({ overlay := overlay, path := path }, (splitWs capt).filterMap cratespec_to_depinfo)
    | none => none

/-! ## Claim theorems -/

/-- An overlay source in SSH-alias form (score 1). -/
def c1SrcAt : Source := { typ := SourceType.git, url := toL ("git@example.org:overlay.git") }

/-- An overlay source in git-daemon form (score -2). -/
def c1SrcDaemon : Source := { typ := SourceType.git, url := toL ("git://example.org/overlay.git") }

/-- Overlay environment where fetching from either source succeeds; the
walked path records which source's HEAD was used. -/
def c1Env : OverlayEnv :=
  { offline := false
    sources := [c1SrcAt, c1SrcDaemon]
    repoExists := true
    openRepo := .ok ()
    head0 := .error ("no local HEAD")
    fetch := fun s => if s = c1SrcDaemon then .ok 7 else .ok 9
    walk := fun h =>
      .ok [({ overlay := "test",
              path := if h = 7 then toL ("from-git-daemon") else toL ("from-git-at") }, [])] }

/-- Claim C1: the claim states the filtered sources are stably sorted
in *descending* score order so that a strictly higher-scored source is
attempted first.  The code (`sources.sort_by_key(source_goodness)`,
`main.rs` line 128) sorts *ascending*: with sources scored 1 (`git@`)
and -2 (`git://`), the -2 source ends up first and its fetch result
becomes the working HEAD even though the higher-scored source also
succeeds. -/
theorem c1_sort_is_ascending :
    sortSources [c1SrcAt, c1SrcDaemon] = [c1SrcDaemon, c1SrcAt] ∧
    source_goodness c1SrcDaemon.url < source_goodness c1SrcAt.url ∧
    overlayTask c1Env = .ok [({ overlay := "test", path := toL ("from-git-daemon") }, [])] := by
  have hgit : gitSources [c1SrcAt, c1SrcDaemon] = [c1SrcAt, c1SrcDaemon] := by
    simp [gitSources, c1SrcAt, c1SrcDaemon]
  have hsort : sortSources [c1SrcAt, c1SrcDaemon] = [c1SrcDaemon, c1SrcAt] := by
    simp [sortSources, List.mergeSort, List.merge, c1SrcAt, c1SrcDaemon, source_goodness, toL,
      List.isPrefixOf]
  refine ⟨hsort, by decide, ?_⟩
  have hfetch : c1Env.fetch c1SrcDaemon = .ok 7 := by simp [c1Env]
  have hwalk : c1Env.walk 7 = .ok [({ overlay := "test", path := toL ("from-git-daemon") }, [])] := by
    simp [c1Env, toL]
  simp only [overlayTask]
  rw [show c1Env.sources = [c1SrcAt, c1SrcDaemon] from rfl, hgit, hsort]
  simp only [List.isEmpty, show c1Env.offline = false from rfl, show c1Env.repoExists = true from rfl,
    show c1Env.openRepo = Except.ok () from rfl, Bool.false_and, Bool.not_false, if_false,
    Bool.and_self]
  simp [tryFetch, hfetch, hwalk]

/-- Claim C5 counterexample: the claim says any `ssh://...` URL scores
2 (strictly above `git@host:...`); `source_goodness` only recognizes
`git+ssh://` and `ssh+git://`, so a plain `ssh://` URL falls into the
unscored class 0, strictly below the `git@` class. -/
theorem c5_plain_ssh_scores_zero :
    source_goodness (toL ("ssh://example.org/repo.git")) = 0 ∧
    source_goodness (toL ("git@example.org:repo.git")) = 1 ∧
    ¬ source_goodness (toL ("git@example.org:repo.git")) <
        source_goodness (toL ("ssh://example.org/repo.git")) :=
  ⟨rfl, rfl, by decide⟩

/-- Claim C5 (amended): the scoring total order of `source_goodness` is
`git://` (-2) < `https://` (-1) < unscored/other, including plain
`ssh://` (0) < `git@host:...` (1) < `git+ssh://`/`ssh+git://` (2). -/
theorem c5_scoring_total_order (r1 r2 r3 r4 r5 r6 : Str) :
    source_goodness (toL ("git://") ++ r1) = -2 ∧
    source_goodness (toL ("https://") ++ r2) = -1 ∧
    source_goodness (toL ("ssh://") ++ r3) = 0 ∧
    source_goodness (toL ("git@") ++ r4) = 1 ∧
    source_goodness (toL ("git+ssh://") ++ r5) = 2 ∧
    source_goodness (toL ("ssh+git://") ++ r6) = 2 ∧
    (-2 : Int) < -1 ∧ (-1 : Int) < 0 ∧ (0 : Int) < 1 ∧ (1 : Int) < 2 := by
  refine ⟨?_, ?_, ?_, ?_, ?_, ?_, by decide, by decide, by decide, by decide⟩ <;>
    simp [source_goodness, toL, List.isPrefixOf]

/-- Claim C5 witness: the amended ordering instantiated at empty URL
tails. -/
theorem c5_scoring_total_order_witness :
    source_goodness (toL ("git://")) = -2 ∧ source_goodness (toL ("git@")) = 1 :=
  ⟨by simpa using (c5_scoring_total_order [] [] [] [] [] []).1,
   by simpa using (c5_scoring_total_order [] [] [] [] [] []).2.2.2.1⟩

/-- Claim C6: in offline mode, an overlay whose repository directory
does not exist, or whose repository opens but has no resolvable HEAD,
terminates successfully and inserts nothing into the shared map. -/
theorem c6_offline_skip (env : OverlayEnv) (hoff : env.offline = true)
    (h : env.repoExists = false ∨ (env.openRepo = .ok () ∧ ∃ e, env.head0 = .error e)) :
    overlayTask env = .ok [] := by
  unfold overlayTask
  by_cases hs : (gitSources env.sources).isEmpty
  · simp [hs]
  · rcases h with h | ⟨ho, e, he⟩
    · simp [hs, hoff, h]
    · cases hex : env.repoExists
      · simp [hs, hoff, hex]
      · simp [hs, hoff, hex, ho, he, Except.isOk, Except.toBool]

/-- Overlay environment for the C6 witness: offline, repository
present, no resolvable HEAD. -/
def c6Env : OverlayEnv :=
  { offline := true
    sources := [c1SrcAt]
    repoExists := true
    openRepo := .ok ()
    head0 := .error ("no local HEAD")
    fetch := fun _ => .error ("offline")
    walk := fun _ => .ok [] }

/-- Claim C6 witness. -/
theorem c6_offline_skip_witness :
    (c6Env.offline = true ∧ c6Env.openRepo = .ok () ∧ ∃ e, c6Env.head0 = .error e) ∧
    overlayTask c6Env = .ok [] :=
  ⟨⟨rfl, rfl, ⟨"no local HEAD", rfl⟩⟩,
   c6_offline_skip c6Env rfl (Or.inr ⟨rfl, ⟨"no local HEAD", rfl⟩⟩)⟩

/-- Environment for the C2 counterexample: the registry-index task
succeeded, but both the primary overlay and the advisory-repository
task failed. -/
def c2Env : JoinEnv :=
  { yanks := .ok []
    gentoo := .error ("primary overlay failed")
    rustsecGet := .error ("advisory repository failed")
    openDb := .ok ()
    latestFresh := .ok true
    loadDb := .error ("unused")
    deps := []
    createFile := .ok ()
    writeJson := .ok () }

/-- Claim C2 counterexample: the claim says both auxiliary results are
checked before the primary overlay's, so an auxiliary failure is the
reported fatal error even when the primary overlay also failed.  In
the code (`main.rs` lines 186-188) the primary overlay's result is
checked *before* the advisory-repository result: with both failed, the
reported error is the primary overlay's. -/
theorem c2_primary_checked_before_rustsec :
    c2Env.rustsecGet = .error ("advisory repository failed") ∧
    (mainAfterJoin c2Env).1 = .error ("primary overlay failed") ∧
    (mainAfterJoin c2Env).1 ≠ .error ("advisory repository failed") := by
  refine ⟨rfl, rfl, ?_⟩
  intro h
  simp [mainAfterJoin, c2Env] at h

/-- Claim C2 (amended): the post-join checks run in the order registry
index, primary overlay, advisory repository (then freshness and
emptiness): a registry-index failure is always the reported error; a
primary-overlay failure is reported whenever the registry index
succeeded; an advisory-repository failure is reported only when both
of those succeeded. -/
theorem c2_check_order (env : JoinEnv) :
    (∀ m, env.yanks = .error m → (mainAfterJoin env).1 = .error m) ∧
    (∀ t m, env.yanks = .ok t → env.gentoo = .error m → (mainAfterJoin env).1 = .error m) ∧
    (∀ t m, env.yanks = .ok t → env.gentoo = .ok () → env.rustsecGet = .error m →
      (mainAfterJoin env).1 = .error m) := by
  refine ⟨?_, ?_, ?_⟩ <;> (intros; simp [mainAfterJoin, *])

/-- Claim C2 witness. -/
theorem c2_check_order_witness :
    c2Env.yanks = .ok [] ∧ c2Env.gentoo = .error ("primary overlay failed") ∧
    (mainAfterJoin c2Env).1 = .error ("primary overlay failed") :=
  ⟨rfl, rfl, (c2_check_order c2Env).2.1 [] ("primary overlay failed") rfl rfl⟩

/-- Claim C7: with the registry index, primary overlay and advisory
repository all succeeded, a fresh advisory repository that loads into
a database with zero advisories makes the run fail with the
data-integrity error, with the output file never created nor
written. -/
theorem c7_empty_db_fails_before_write (env : JoinEnv) (t : YankTable) (db : Db)
    (hy : env.yanks = .ok t) (hg : env.gentoo = .ok ()) (hr : env.rustsecGet = .ok ())
    (ho : env.openDb = .ok ()) (hf : env.latestFresh = .ok true)
    (hl : env.loadDb = .ok db) (hc : db.advisoryCount = 0) :
    mainAfterJoin env = (.error ("0 advisories found. Sounds  wrong."), []) := by
  simp [mainAfterJoin, hy, hg, hr, ho, hf, hl, hc]

/-- The loaded advisory database of the C7 witness: zero advisories. -/
def c7Db : Db := { advisoryCount := 0, query := fun _ => [] }

/-- Environment for the C7 witness: every earlier stage succeeded. -/
def c7Env : JoinEnv :=
  { yanks := .ok []
    gentoo := .ok ()
    rustsecGet := .ok ()
    openDb := .ok ()
    latestFresh := .ok true
    loadDb := .ok c7Db
    deps := []
    createFile := .ok ()
    writeJson := .ok () }

/-- Claim C7 witness. -/
theorem c7_empty_db_fails_before_write_witness :
    c7Db.advisoryCount = 0 ∧
    mainAfterJoin c7Env = (.error ("0 advisories found. Sounds  wrong."), []) :=
  ⟨rfl, c7_empty_db_fails_before_write c7Env [] c7Db rfl rfl rfl rfl rfl rfl rfl⟩

/-- The advertised remote HEAD for the C9 environments: a symbolic
alias to `refs/heads/main` pointing at object 42. -/
def c9Head : RemoteRef :=
  { name := toL ("HEAD"), oid := 42, symrefTarget := some (toL ("refs/heads/main")) }

/-- Environment for C9: every external git call succeeds. -/
def c9Env : UpEnv :=
  { connectOk := true, refs := [c9Head], downloadOk := true, disconnectOk := true,
    storeOk := true }

/-- URL used in the C9 theorems. -/
def c9Url : Str := toL ("https://example.org/repo.git")

/-- Claim C9 counterexample: the claim says both reference updates
happen *before* the transport is explicitly closed; in `RepoRepo::up`
(`gitrepo.rs` lines 85-104) `remo.disconnect()` runs right after the
download and both `Repository::reference` updates happen *after* it. -/
theorem c9_disconnect_precedes_updates :
    (up c9Env c9Url).2 =
      [GitEvent.connect, GitEvent.listRefs, GitEvent.download [toL ("HEAD")],
       GitEvent.disconnect, GitEvent.updateRef (toL ("refs/heads/main")) 42,
       GitEvent.updateRef (toL ("HEAD")) 42] ∧
    ¬ updatesBeforeDisconnect (up c9Env c9Url).2 := by
  refine ⟨rfl, ?_⟩
  intro hord
  have h := hord [GitEvent.connect, GitEvent.listRefs, GitEvent.download [toL ("HEAD")]]
    [GitEvent.updateRef (toL ("refs/heads/main")) 42, GitEvent.updateRef (toL ("HEAD")) 42]
    (by rfl) (toL ("refs/heads/main")) 42
  exact h (by simp)

/-- Claim C9 (amended): on a successful online fetch `up` selects the
first advertised reference, downloads exactly that single reference,
and — when it is a symbolic alias — updates both the symbolic target
name and the concrete name to the fetched object id, with the
transport already explicitly closed before the updates (disconnect
precedes every reference update in the call trace). -/
theorem c9_single_ref_fetch (env : UpEnv) (url : Str) (head : RemoteRef)
    (rest : List RemoteRef) (hrefs : env.refs = head :: rest) (hc : env.connectOk = true)
    (hd : env.downloadOk = true) (hx : env.disconnectOk = true) (hs : env.storeOk = true) :
    (up env url).1 = .ok head.oid ∧
    (∀ names, GitEvent.download names ∈ (up env url).2 → names = [head.name]) ∧
    GitEvent.download [head.name] ∈ (up env url).2 ∧
    (∀ srt, head.symrefTarget = some srt →
      GitEvent.updateRef srt head.oid ∈ (up env url).2 ∧
      GitEvent.updateRef head.name head.oid ∈ (up env url).2) ∧
    (head.symrefTarget = none → GitEvent.updateRef head.name head.oid ∈ (up env url).2) ∧
    (∃ pre post, (up env url).2 = pre ++ GitEvent.disconnect :: post ∧
      ∀ n o, GitEvent.updateRef n o ∉ pre) := by
  cases hsym : head.symrefTarget with
  | some srt =>
    have hup : up env url =
        (.ok head.oid,
         [GitEvent.connect, GitEvent.listRefs, GitEvent.download [head.name],
          GitEvent.disconnect, GitEvent.updateRef srt head.oid,
          GitEvent.updateRef head.name head.oid]) := by
      simp [up, hrefs, hc, hd, hx, hs, hsym]
    rw [hup]
    refine ⟨rfl, ?_, by simp, ?_, ?_, ?_⟩
    · intro names hmem
      simp only [List.mem_cons, List.not_mem_nil, or_false] at hmem
      rcases hmem with h | h | h | h | h | h <;> simp_all
    · intro s hster
      cases hster
      simp
    · intro hn
      cases hn
    · refine ⟨[GitEvent.connect, GitEvent.listRefs, GitEvent.download [head.name]],
        [GitEvent.updateRef srt head.oid, GitEvent.updateRef head.name head.oid], by simp, ?_⟩
      intro n o
      simp
  | none =>
    have hup : up env url =
        (.ok head.oid,
         [GitEvent.connect, GitEvent.listRefs, GitEvent.download [head.name],
          GitEvent.disconnect, GitEvent.updateRef head.name head.oid]) := by
      simp [up, hrefs, hc, hd, hx, hs, hsym]
    rw [hup]
    refine ⟨rfl, ?_, by simp, ?_, ?_, ?_⟩
    · intro names hmem
      simp only [List.mem_cons, List.not_mem_nil, or_false] at hmem
      rcases hmem with h | h | h | h | h <;> simp_all
    · intro s hster
      cases hster
    · intro _
      simp
    · refine ⟨[GitEvent.connect, GitEvent.listRefs, GitEvent.download [head.name]],
        [GitEvent.updateRef head.name head.oid], by simp, ?_⟩
      intro n o
      simp

/-- Claim C9 witness. -/
theorem c9_single_ref_fetch_witness :
    c9Env.refs = [c9Head] ∧ (up c9Env c9Url).1 = .ok c9Head.oid :=
  ⟨rfl, (c9_single_ref_fetch c9Env c9Url c9Head [] rfl rfl rfl rfl rfl).1⟩

/-- Manifest content whose syntactically valid `CRATES="..."`
declaration sits on the very first line of the file, not preceded by
any newline. -/
def c10Content : Str := toL ("CRATES=\"adler32-1.0.4\"\n$(cargo_crate_uris ${CRATES})\n")

/-- Claim C10: the `CRATES` pattern only matches after a newline with a
space-only indent.  `c10Content` carries a valid declaration on the
first line and the standard macro usage, yet the matcher finds no
declaration and `parse` inserts nothing (taking the warning branch);
prefixing a newline makes the same text match, while a tab indent does
not. -/
theorem c10_first_line_unrecognized :
    (∀ sp : Str → Option (Str × Str),
      parse sp "ovl" (toL ("dev-util/x/x-1.0.0.ebuild")) c10Content = none) ∧
    cratesCapture c10Content = none ∧
    cratesCapture ('\n' :: c10Content) = some (toL ("adler32-1.0.4")) ∧
    cratesCapture (toL ("\n\tCRATES=\"adler32-1.0.4\"\n$(cargo_crate_uris ${CRATES})\n")) =
      none := by
  refine ⟨?_, by decide, by decide, by decide⟩
  intro sp
  have h1 : (!stdUses c10Content && !containsSub cargoUrisLit c10Content) = false := by decide
  have h2 : cratesCapture c10Content = none := by decide
  simp [parse, h1, h2]

/-- Claim C10 witness (the universally quantified conjunct applied to a
concrete filename decoder). -/
theorem c10_first_line_unrecognized_witness :
    parse (fun _ => none) "ovl" (toL ("dev-util/x/x-1.0.0.ebuild")) c10Content = none :=
  c10_first_line_unrecognized.1 (fun _ => none)

/-- Totality of the report comparison: for any two entries one of the
two `Reverse`-key comparisons holds. -/
lemma crateLe_total (e f : CrateStatus) : (crateLe e f || crateLe f e) = true := by
  obtain ⟨p, g, s, u⟩ := sortKey e
  obtain ⟨p', g', s', u'⟩ := sortKey f
  simp only [crateLe, lexLe, Bool.or_eq_true, Bool.and_eq_true, decide_eq_true_eq, beq_iff_eq]
  omega

/-- Transitivity of the report comparison. -/
lemma crateLe_trans (e f g : CrateStatus) (h1 : crateLe e f = true) (h2 : crateLe f g = true) :
    crateLe e g = true := by
  obtain ⟨p, q, s, u⟩ := sortKey e
  obtain ⟨p', q', s', u'⟩ := sortKey f
  obtain ⟨p'', q'', s'', u''⟩ := sortKey g
  simp only [crateLe, lexLe, Bool.or_eq_true, Bool.and_eq_true, decide_eq_true_eq,
    beq_iff_eq] at h1 h2 ⊢
  omega

/-- Claim C3: the report sort orders the `CrateStatus` collection
descending by the composite key `(priority class, primary-overlay
reference count, maximum severity score with absent scores below any
present score, total reference count)`: the sorted output is pairwise
ordered under the `Reverse`-key comparison and is a permutation of the
input; and for any two entries, one with at least one advisory has a
strictly greater key (priority class 3 against at most 2) than one
with no advisories, regardless of yank status and usage counts. -/
theorem c3_ranking (l : List CrateStatus) (a b : CrateStatus)
    (ha : a.advisories ≠ []) (hb : b.advisories = []) :
    List.Pairwise (fun e f => crateLe e f = true) (sortCrates l) ∧
    (sortCrates l).Perm l ∧
    lexLe (sortKey b) (sortKey a) = true ∧ lexLe (sortKey a) (sortKey b) = false := by
  have hae : a.advisories.isEmpty = false := by
    cases h : a.advisories with
    | nil => exact absurd h ha
    | cons x xs => rfl
  have hka : (sortKey a).1 = 3 := by
    simp [sortKey, hae]
  have hkb : (sortKey b).1 ≤ 2 := by
    simp only [sortKey, hb]
    cases b.yanked with
    | none => simp
    | some v => cases v <;> simp
  refine ⟨@List.sorted_mergeSort CrateStatus crateLe crateLe_trans
      (fun e f => crateLe_total e f) l, List.mergeSort_perm l crateLe, ?_, ?_⟩
  · simp only [lexLe, Bool.or_eq_true, Bool.and_eq_true, decide_eq_true_eq, beq_iff_eq]
    omega
  · rw [Bool.eq_false_iff]
    intro hcon
    simp only [lexLe, Bool.or_eq_true, Bool.and_eq_true, decide_eq_true_eq, beq_iff_eq] at hcon
    omega

/-- A report entry with one (unscored) advisory and no references. -/
def c3A : CrateStatus :=
  { id := { name := toL ("adler32"), ver := toL ("1.0.4") }
    advisories := [{ id := "RUSTSEC-2021-0001", title := "t", cvss := none }]
    yanked := some false
    ebuilds := [] }

/-- A report entry with no advisory but yanked and widely used. -/
def c3B : CrateStatus :=
  { id := { name := toL ("arrayref"), ver := toL ("0.3.6") }
    advisories := []
    yanked := some true
    ebuilds := [{ overlay := "gentoo", path := toL ("p") }, { overlay := "guru", path := toL ("q") }] }

/-- Claim C3 witness. -/
theorem c3_ranking_witness :
    (c3A.advisories ≠ [] ∧ c3B.advisories = []) ∧
    (lexLe (sortKey c3B) (sortKey c3A) = true ∧ lexLe (sortKey c3A) (sortKey c3B) = false) :=
  ⟨⟨by decide, rfl⟩, (c3_ranking [c3A, c3B] c3A c3B (by decide) rfl).2.2⟩

/-! ## Characterization of the cross-reference fold (for claim C4) -/

/-- The manifests referencing dependency `d`, in iteration order. -/
def refsOf (d : DepInfo) (pairs : List (Ebuild × DepInfo)) : List Ebuild :=
  (pairs.filter (fun p => decide (p.2 = d))).map Prod.fst

/-- Fold that deduplicates a list keeping first occurrences, starting
from an accumulator. -/
def foAux (acc : List DepInfo) (l : List DepInfo) : List DepInfo :=
  l.foldl (fun acc d => if d ∈ acc then acc else acc ++ [d]) acc

/-- First-occurrence deduplication of a dependency list. -/
def firstOccs (l : List DepInfo) : List DepInfo := foAux [] l

lemma mem_foAux (l : List DepInfo) : ∀ acc x, x ∈ foAux acc l ↔ x ∈ acc ∨ x ∈ l := by
  induction l with
  | nil => simp [foAux]
  | cons d rest ih =>
    intro acc x
    show x ∈ foAux (if d ∈ acc then acc else acc ++ [d]) rest ↔ _
    rw [ih]
    by_cases hd : d ∈ acc
    · simp only [hd, if_true, List.mem_cons]
      constructor
      · rintro (h | h)
        · exact Or.inl h
        · exact Or.inr (Or.inr h)
      · rintro (h | h | h)
        · exact Or.inl h
        · exact Or.inl (h ▸ hd)
        · exact Or.inr h
    · simp only [hd, if_false, List.mem_append, List.mem_singleton, List.mem_cons]
      tauto

lemma mem_firstOccs (l : List DepInfo) (x : DepInfo) : x ∈ firstOccs l ↔ x ∈ l := by
  rw [firstOccs, mem_foAux]
  simp

lemma nodup_foAux (l : List DepInfo) : ∀ acc, acc.Nodup → (foAux acc l).Nodup := by
  induction l with
  | nil => exact fun acc h => h
  | cons d rest ih =>
    intro acc hacc
    show (foAux (if d ∈ acc then acc else acc ++ [d]) rest).Nodup
    apply ih
    by_cases hd : d ∈ acc
    · simpa [hd]
    · simp only [hd, if_false]
      rw [List.nodup_append]
      exact ⟨hacc, List.nodup_singleton d, fun x hx hx' => hd ((List.mem_singleton.mp hx') ▸ hx)⟩

lemma nodup_firstOccs (l : List DepInfo) : (firstOccs l).Nodup :=
  nodup_foAux l [] List.nodup_nil

lemma firstOccs_snoc (l : List DepInfo) (d : DepInfo) :
    firstOccs (l ++ [d]) =
      if d ∈ firstOccs l then firstOccs l else firstOccs l ++ [d] := by
  show foAux [] (l ++ [d]) = _
  rw [foAux, List.foldl_append]
  rfl

lemma firstOccs_append_mem (l : List DepInfo) (d : DepInfo) (h : d ∈ l) :
    firstOccs (l ++ [d]) = firstOccs l := by
  have hm : d ∈ firstOccs l := (mem_firstOccs l d).mpr h
  rw [firstOccs_snoc, if_pos hm]

lemma firstOccs_append_not_mem (l : List DepInfo) (d : DepInfo) (h : d ∉ l) :
    firstOccs (l ++ [d]) = firstOccs l ++ [d] := by
  have hm : d ∉ firstOccs l := fun hc => h ((mem_firstOccs l d).mp hc)
  rw [firstOccs_snoc, if_neg hm]

lemma refsOf_append (d d' : DepInfo) (eb : Ebuild) (pairs : List (Ebuild × DepInfo)) :
    refsOf d (pairs ++ [(eb, d')]) = refsOf d pairs ++ (if d' = d then [eb] else []) := by
  by_cases h : d' = d <;> simp [refsOf, List.filter_append, h]

lemma refsOf_eq_nil (d : DepInfo) (pairs : List (Ebuild × DepInfo))
    (h : d ∉ pairs.map Prod.snd) : refsOf d pairs = [] := by
  induction pairs with
  | nil => rfl
  | cons p rest ih =>
    simp only [List.map_cons, List.mem_cons] at h
    push_neg at h
    have h2 : ¬ p.2 = d := fun e => h.1 e.symm
    simp only [refsOf, List.filter_cons, h2, decide_eq_true_eq, if_neg, decide_False]
    exact ih h.2

lemma lookupCS_map (g : DepInfo → CrateStatus) :
    ∀ (l : List DepInfo) (x : DepInfo),
      lookupCS (l.map (fun d => (d, g d))) x = if x ∈ l then some (g x) else none := by
  intro l
  induction l with
  | nil => intro x; simp [lookupCS]
  | cons d rest ih =>
    intro x
    by_cases h : d = x
    · subst h
      simp [lookupCS]
    · have h' : ¬ x = d := fun e => h e.symm
      simp only [List.map_cons, lookupCS, h, if_false, ih x, List.mem_cons, h', false_or]

lemma pushRef_map (g : DepInfo → CrateStatus) (l : List DepInfo) (d : DepInfo) (eb : Ebuild) :
    pushRef (l.map (fun x => (x, g x))) d eb =
      l.map (fun x =>
        (x, if x = d then { g x with ebuilds := (g x).ebuilds ++ [eb] } else g x)) := by
  rw [pushRef, List.map_map]
  apply List.map_congr_left
  intro x _
  by_cases h : x = d <;> simp [h]

/-- The status the cross-reference stage ends up storing for `d`:
fields from the one advisory query and yank lookup, references in
iteration order. -/
def mkFull (db : Db) (yanks : YankTable) (pairs : List (Ebuild × DepInfo)) (d : DepInfo) :
    CrateStatus :=
  { id := d, advisories := db.query d, yanked := lookupYank yanks d, ebuilds := refsOf d pairs }

/-- Characterization of the cross-reference fold: the map holds, in
first-occurrence order, one entry per distinct dependency carrying the
queried fields and all references; the lookup log is exactly the
first-occurrence list. -/
lemma crossRefPairs_char (db : Db) (yanks : YankTable) (pairs : List (Ebuild × DepInfo)) :
    crossRefPairs db yanks pairs =
      ((firstOccs (pairs.map Prod.snd)).map (fun d => (d, mkFull db yanks pairs d)),
       firstOccs (pairs.map Prod.snd)) := by
  induction pairs using List.reverseRecOn with
  | nil => rfl
  | append_singleton pairs p ih =>
    obtain ⟨eb, d⟩ := p
    have hstep : crossRefPairs db yanks (pairs ++ [(eb, d)]) =
        crStep db yanks (crossRefPairs db yanks pairs) (eb, d) := by
      simp [crossRefPairs, List.foldl_append]
    rw [hstep, ih]
    have hsnd : (pairs ++ [(eb, d)]).map Prod.snd = pairs.map Prod.snd ++ [d] := by
      simp
    by_cases hmem : d ∈ pairs.map Prod.snd
    · have hfo : d ∈ firstOccs (pairs.map Prod.snd) := (mem_firstOccs _ _).mpr hmem
      have hlook : lookupCS
          ((firstOccs (pairs.map Prod.snd)).map (fun x => (x, mkFull db yanks pairs x))) d =
          some (mkFull db yanks pairs d) := by
        rw [lookupCS_map, if_pos hfo]
      simp only [crStep, hlook]
      rw [hsnd, firstOccs_append_mem _ _ hmem]
      rw [pushRef_map]
      refine congrArg (fun m => (m, firstOccs (pairs.map Prod.snd))) ?_
      apply List.map_congr_left
      intro x _
      by_cases hxd : x = d
      · subst hxd
        simp [mkFull, refsOf_append]
      · have hdx : ¬ d = x := fun e => hxd e.symm
        simp [mkFull, refsOf_append, hxd, hdx]
    · have hfo : d ∉ firstOccs (pairs.map Prod.snd) := fun hc => hmem ((mem_firstOccs _ _).mp hc)
      have hlook : lookupCS
          ((firstOccs (pairs.map Prod.snd)).map (fun x => (x, mkFull db yanks pairs x))) d =
          none := by
        rw [lookupCS_map, if_neg hfo]
      simp only [crStep, hlook]
      rw [hsnd, firstOccs_append_not_mem _ _ hmem]
      rw [List.map_append]
      refine congrArg (fun m => (m, firstOccs (pairs.map Prod.snd) ++ [d])) ?_
      refine congrArg₂ (· ++ ·) ?_ ?_
      · apply List.map_congr_left
        intro x hx
        have hxl : x ∈ pairs.map Prod.snd := (mem_firstOccs _ _).mp hx
        have hxd : ¬ d = x := fun e => hmem (e ▸ hxl)
        simp [mkFull, refsOf_append, hxd]
      · have : refsOf d pairs = [] := refsOf_eq_nil d pairs hmem
        simp [mkFull, newStatus, refsOf_append, this]

/-- Claim C4: cross-referencing produces exactly one `CrateStatus` per
distinct `(name, version)`: the map keys are distinct and are exactly
the dependencies occurring in the joined extraction map; each entry
holds the advisory-query result and yank lookup for its key, and its
reference list is every referencing manifest key in iteration order;
the advisory/yank lookup log equals the (duplicate-free) key list, so
the lookups run exactly once per distinct dependency — in particular, a
dependency with no advisories and unknown yank status still gets an
entry. -/
theorem c4_crossref_dedup (db : Db) (yanks : YankTable) (deps : List (Ebuild × List DepInfo)) :
    ((crossRefPairs db yanks (depPairs deps)).1.map Prod.fst).Nodup ∧
    (∀ d, d ∈ (crossRefPairs db yanks (depPairs deps)).1.map Prod.fst ↔
      d ∈ (depPairs deps).map Prod.snd) ∧
    (∀ p, p ∈ (crossRefPairs db yanks (depPairs deps)).1 →
      p.2.id = p.1 ∧ p.2.advisories = db.query p.1 ∧ p.2.yanked = lookupYank yanks p.1 ∧
        p.2.ebuilds = refsOf p.1 (depPairs deps)) ∧
    (crossRefPairs db yanks (depPairs deps)).2 =
      (crossRefPairs db yanks (depPairs deps)).1.map Prod.fst := by
  rw [crossRefPairs_char]
  have hfst : ((firstOccs ((depPairs deps).map Prod.snd)).map
      (fun d => (d, mkFull db yanks (depPairs deps) d))).map Prod.fst =
      firstOccs ((depPairs deps).map Prod.snd) := by
    rw [List.map_map]
    exact List.map_id _
  refine ⟨?_, ?_, ?_, ?_⟩
  · rw [hfst]
    exact nodup_firstOccs _
  · intro d
    rw [hfst]
    exact mem_firstOccs _ _
  · intro p hp
    simp only [List.mem_map] at hp
    obtain ⟨d, _, rfl⟩ := hp
    exact ⟨rfl, rfl, rfl, rfl⟩
  · rw [hfst]

/-- A manifest of the primary overlay for the C4 witness. -/
def c4Eb1 : Ebuild := { overlay := "gentoo", path := toL ("app-misc/a/a-1.0.0.ebuild") }

/-- A manifest of another overlay for the C4 witness. -/
def c4Eb2 : Ebuild := { overlay := "guru", path := toL ("app-misc/b/b-2.0.0.ebuild") }

/-- The dependency both witness manifests reference. -/
def c4Dep : DepInfo := { name := toL ("serde"), ver := toL ("1.0.0") }

/-- Advisory database of the C4 witness: no matches for anything. -/
def c4Db : Db := { advisoryCount := 1, query := fun _ => [] }

/-- Extraction map of the C4 witness: two manifests referencing the
same dependency. -/
def c4Deps : List (Ebuild × List DepInfo) := [(c4Eb1, [c4Dep]), (c4Eb2, [c4Dep])]

/-- The single status the C4 witness run produces: no advisories,
unknown yank status, both references in order. -/
def c4Status : CrateStatus :=
  { id := c4Dep
    advisories := []
    yanked := none
    ebuilds := [c4Eb1, c4Eb2] }

/-- Claim C4 witness: the shared dependency gets exactly one entry,
with no advisories, unknown yank status, and both references in
order. -/
theorem c4_crossref_dedup_witness :
    ((c4Dep, c4Status) ∈ (crossRefPairs c4Db [] (depPairs c4Deps)).1) ∧
    (c4Dep, c4Status).2.ebuilds = refsOf c4Dep (depPairs c4Deps) :=
  ⟨by decide, ((c4_crossref_dedup c4Db [] c4Deps).2.2.1 _ (by decide)).2.2.2⟩

/-! ## Claim C8: the three-crate declaration -/

/-- Replacement is the identity when the pattern's first character
does not occur in the text at all. -/
lemma replaceL_head_not_mem (s pat rep : Str) (c : Char)
    (hpat : pat.head? = some c) (hc : c ∉ s) : replaceL s pat rep = s := by
  induction s with
  | nil => simp [replaceL]
  | cons a rest ih =>
    have hnp : ¬ (pat ≠ [] ∧ pat.isPrefixOf (a :: rest) = true) := by
      rintro ⟨hne, hpre⟩
      cases pat with
      | nil => exact hne rfl
      | cons p ps =>
        have hpc : p = c := by simpa using hpat
        subst hpc
        simp only [List.isPrefixOf, Bool.and_eq_true, beq_iff_eq] at hpre
        exact hc (hpre.1 ▸ List.mem_cons_self a rest)
    simp only [replaceL, dif_neg hnp]
    rw [ih (fun hm => hc (List.mem_cons_of_mem a hm))]

/-- The declared crate list of claim C8. -/
def c8Text : Str := toL ("adler32-1.0.4 arrayref-0.3.6 xattr-0.2.2")

/-- The three dependency specifiers extraction must produce for
`c8Text`, in order. -/
def c8Deps : List DepInfo :=
  [{ name := toL ("adler32"), ver := toL ("1.0.4") },
   { name := toL ("arrayref"), ver := toL ("0.3.6") },
   { name := toL ("xattr"), ver := toL ("0.2.2") }]

/-- Tokenizing and parsing the declared list yields exactly the three
specifiers, in order. -/
lemma c8_tokens : (splitWs c8Text).filterMap cratespec_to_depinfo = c8Deps := by decide

/-- Claim C8: a candidate manifest whose recognized `CRATES`
declaration is exactly `adler32-1.0.4 arrayref-0.3.6 xattr-0.2.2` and
which uses the standard substitution-macro invocation gets exactly the
three corresponding dependency specifiers inserted under its manifest
key, in declaration order — for every overlay, path and filename
decoding (the declaration has no placeholder, so substitution cannot
alter it). -/
theorem c8_three_crates (sp : Str → Option (Str × Str)) (overlay : String)
    (path content : Str) (husage : stdUses content = true)
    (hdecl : cratesCapture content = some c8Text) :
    parse sp overlay path content = some ({ overlay := overlay, path := path }, c8Deps) := by
  have hcond : (!stdUses content && !containsSub cargoUrisLit content) = false := by
    rw [husage]
    rfl
  have hdollar : '$' ∉ c8Text := by decide
  simp only [parse, hcond, Bool.false_eq_true, if_false, hdecl]
  cases hsp : sp path with
  | none => simp [c8_tokens]
  | some pnv =>
    have h1 : replaceL c8Text pP (pnv.1 ++ '-' :: pnv.2) = c8Text :=
      replaceL_head_not_mem c8Text pP _ '$' (by decide) hdollar
    have h2 : replaceL c8Text pPV pnv.2 = c8Text :=
      replaceL_head_not_mem c8Text pPV _ '$' (by decide) hdollar
    have h3 : replaceL c8Text pPN pnv.1 = c8Text :=
      replaceL_head_not_mem c8Text pPN _ '$' (by decide) hdollar
    simp only [h1, h2, h3, c8_tokens]

/-- A concrete candidate manifest carrying the C8 declaration and the
standard macro invocation. -/
def c8Content : Str :=
  toL ("EAPI=7\ninherit cargo\n\nCRATES=\"adler32-1.0.4 arrayref-0.3.6 xattr-0.2.2\"\nSRC_URI=\"$(cargo_crate_uris ${CRATES})\"\n")

/-- Claim C8 witness. -/
theorem c8_three_crates_witness :
    (stdUses c8Content = true ∧ cratesCapture c8Content = some c8Text) ∧
    parse (fun _ => none) "gentoo" (toL ("dev-util/x/x-1.0.0.ebuild")) c8Content =
      some ({ overlay := "gentoo", path := toL ("dev-util/x/x-1.0.0.ebuild") }, c8Deps) :=
  ⟨⟨by decide, by decide⟩,
   c8_three_crates (fun _ => none) "gentoo" (toL ("dev-util/x/x-1.0.0.ebuild")) c8Content
     (by decide) (by decide)⟩

end EbuildCheck
